import Mathlib

/-!
Verification of the budget-constrained search orchestration engine of the
Six Thinking Hats repository.

The Lean definitions below are a shallow embedding of the Python sources:

* `services/phased_search_orchestrator.py` — `SearchCache`, `DuplicateDetector`,
  `PhasedSearchOrchestrator.execute_initial_search_wave`,
  `PhasedSearchOrchestrator.execute_sequential_search`;
* `agents/manager_agent.py` — `ManagerAgent._determine_complexity`,
  `ManagerAgent._classify_topic`, `ManagerAgent._determine_search_priorities`,
  `ManagerAgent._allocate_search_budget`;
* `services/search_apis.py` — `TavilySearchAPI.search`.

Modelling conventions:

* Machine floats appear in the source only as the duplicate-similarity
  threshold, the Jaccard ratio and result scores; the first two are modelled
  as exact rationals (`ℚ`), the score as an integer that no code inspects.
* Wall-clock time (`datetime.now()` / `time.time()`) is modelled by an
  explicit `now : Nat` (seconds) threaded through the state; the only model
  events that advance the clock are external provider calls, whose duration
  is part of the environment.
* The md5 cache-key digest is modelled by the pre-image string
  `"{hat}:{query.lower().strip()}"` itself (md5 is treated as injective).
* Python `dict`s are modelled as insertion-ordered association lists with
  overwrite-on-set; `dict` truthiness (`if cached_results:`) is modelled
  explicitly where the source relies on it.
* The external provider (`tavily` client) is an opaque environment function
  that may fail (`Except`); `TavilySearchAPI.search` catches all failures and
  returns the empty list, exactly as the `try/except` in the source does.
-/

namespace SixHats

/-! ### Python string primitives -/

/-- Python `str.split()` with no arguments: split on runs of whitespace,
returning no empty tokens.  Auxiliary worker carrying the (reversed) current
token. -/
def pysplitAux : List Char → List Char → List (List Char)
  | cur, [] => if cur.isEmpty then [] else [cur.reverse]
  | cur, c :: rest =>
    if c.isWhitespace then
      if cur.isEmpty then pysplitAux [] rest
      else cur.reverse :: pysplitAux [] rest
    else pysplitAux (c :: cur) rest

/-- Python `str.split()` on a Lean `String`. -/
def pysplit (s : String) : List String :=
  (pysplitAux [] s.toList).map (fun l => String.mk l)

/-- Count of occurrences of a single character, `s.count(c)` for a
one-character needle. -/
def countChar (c : Char) (s : String) : Nat :=
  s.toList.countP (fun d => d = c)

/-- Test whether `needle` occurs as a contiguous substring of `hay`
(Python `needle in hay`).  Empty needle always occurs. -/
def containsSub (needle hay : List Char) : Bool :=
  needle.isPrefixOf hay ||
    match hay with
    | [] => false
    | _ :: rest => containsSub needle rest

/-- String form of `containsSub`: Python `needle in hay`. -/
def strContains (needle hay : String) : Bool :=
  containsSub needle.toList hay.toList

/-- Python `str.lower()` (character-wise lower-casing, as in
`String.toLower`, restated structurally). -/
def strLower (s : String) : String :=
  String.mk (s.toList.map Char.toLower)

/-- Drop leading whitespace characters. -/
def dropLeadingWS : List Char → List Char
  | [] => []
  | c :: rest => if c.isWhitespace then dropLeadingWS rest else c :: rest

/-- Python `str.strip()` with no arguments: remove leading and trailing
whitespace. -/
def strTrim (s : String) : String :=
  String.mk (dropLeadingWS ((dropLeadingWS s.toList.reverse).reverse))

/-- A regex word character (`\w` over the ASCII fragment used by the
vocabulary tables): letters, digits, underscore. -/
def wordChar (c : Char) : Bool :=
  c.isAlpha || c.isDigit || c = '_'

/-- Test whether `term` is a prefix of `s` and the character of `s` immediately after the
match (if any) is not a word character — the trailing `\b` of the regex. -/
def prefixWithBoundary : List Char → List Char → Bool
  | [], [] => true
  | [], c :: _ => !wordChar c
  | _ :: _, [] => false
  | t :: ts, c :: ss => t = c && prefixWithBoundary ts ss

/-- The leading `\b`: the previous character, if any, is not a word
character.  (All vocabulary terms begin and end with word characters, so both
boundaries reduce to this non-word-neighbour condition.) -/
def boundaryOk : Option Char → Bool
  | none => true
  | some c => !wordChar c

/-- Python `re.search(r"\b term \b", s)` succeeds: some position of `s` carries an
occurrence of `term` flanked by word boundaries.  `prev` is the character
just before the current position. -/
def bMatchAux (term : List Char) : Option Char → List Char → Bool
  | prev, s =>
    (boundaryOk prev && prefixWithBoundary term s) ||
      match s with
      | [] => false
      | c :: rest => bMatchAux term (some c) rest

/-- Python `re.search` of the alternation `\b(t₁|t₂|…)\b` against `s.lower()`:
true iff some term of the vocabulary matches with word boundaries.  The
lower-casing of the subject string is done by the caller, as in the source
(`query.lower()`); terms are compared verbatim, so upper-case vocabulary
entries such as `"AI"` can never match a lower-cased subject — exactly as in
the Python regex, which is case-sensitive. -/
def hasTermWB (terms : List String) (s : String) : Bool :=
  terms.any (fun t => bMatchAux t.toList none s.toList)

/-! ### Data model: results, contexts -/

/-- Class `SearchResult` of `services/search_apis.py` (also the `to_dict()` image,
which carries the same four fields).  The float `score` is modelled as an
integer; no orchestration code ever inspects it. -/
structure SearchResult where
  title : String
  url : String
  content : String
  score : Int
deriving Repr, DecidableEq

/-- The metadata dictionary attached to a `HatSearchContext`.  The source
stores `query_length`, `result_count`, optionally `duplicate_of` (initial
wave, duplicate path) and optionally `phase` (sequential path). -/
structure ContextMetadata where
  queryLength : Nat
  resultCount : Nat
  duplicateOf : Option String := none
  phase : Option String := none
deriving Repr, DecidableEq

/-- Dataclass `HatSearchContext` of `phased_search_orchestrator.py`. -/
structure HatSearchContext where
  hatType : String
  searchQuery : String
  searchResults : List SearchResult
  cacheHit : Bool
  executionTime : Nat
  metadata : ContextMetadata
deriving Repr, DecidableEq

/-! ### SearchCache -/

/-- One entry of the cache dictionary: `cache[key] = (results, timestamp)`. -/
structure CacheEntry where
  key : String
  results : List SearchResult
  timestamp : Nat
deriving Repr, DecidableEq

/-- Class `SearchCache` (`phased_search_orchestrator.py`, lines 26–76): a
dictionary from md5 keys to `(results, timestamp)` plus a TTL in seconds. -/
structure SearchCache where
  entries : List CacheEntry
  ttlSeconds : Nat
deriving Repr, DecidableEq

/-- Method `SearchCache._generate_cache_key`: md5 of `f"{hat_name}:{query.lower().strip()}"`,
modelled by the digest pre-image itself. -/
def cacheKey (query hatName : String) : String :=
  hatName ++ ":" ++ (strTrim (strLower query))

/-- Method `SearchCache.get`: return the cached results when the entry exists and
has not expired; delete the entry (and miss) when it has expired.  The
second component is the cache after the read, reflecting the lazy expiry
deletion (`del self.cache[cache_key]`). -/
def SearchCache.get (c : SearchCache) (query hatName : String) (now : Nat) :
    Option (List SearchResult) × SearchCache :=
  let key := cacheKey query hatName
  match c.entries.find? (fun e => e.key == key) with
  | some e =>
    if now - e.timestamp < c.ttlSeconds then
      (some e.results, c)
    else
      (none, { c with entries := c.entries.filter (fun e => e.key != key) })
  | none => (none, c)

/-- Method `SearchCache.set`: unconditional overwrite of the key.  Dictionary entry
order is unobservable to the orchestrator, so overwrite is modelled as
remove-then-append. -/
def SearchCache.set (c : SearchCache) (query hatName : String)
    (results : List SearchResult) (now : Nat) : SearchCache :=
  let key := cacheKey query hatName
  { c with entries :=
      c.entries.filter (fun e => e.key != key) ++ [⟨key, results, now⟩] }

/-! ### DuplicateDetector -/

/-- The lower-cased whitespace-token set of a query
(`set(query.lower().split())`). -/
def tokenSet (s : String) : Finset String :=
  (pysplit (strLower s)).toFinset

/-- The Jaccard-similarity acceptance test of `DuplicateDetector.is_duplicate`
for one registered query: `union > 0` and `intersection / union >= threshold`.
The similarity quotient is the exact rational `mkRat intersection union`
(equal to `(intersection : ℚ) / union` because the union is checked to be
positive first). -/
def jaccardMeets (threshold : ℚ) (a b : String) : Bool :=
  let inter := ((tokenSet a) ∩ (tokenSet b)).card
  let union := ((tokenSet a) ∪ (tokenSet b)).card
  decide (0 < union) && decide (threshold ≤ mkRat inter union)

/-- Method `DuplicateDetector.is_duplicate`: scan the registered `(query, hat)`
pairs in registration order and return the first whose similarity to the new
query meets the threshold. -/
def isDuplicate (threshold : ℚ) (newQuery : String) :
    List (String × String) → Bool × Option String
  | [] => (false, none)
  | (existingQuery, _) :: rest =>
    if jaccardMeets threshold newQuery existingQuery then
      (true, some existingQuery)
    else
      isDuplicate threshold newQuery rest

/-! ### TavilySearchAPI -/

/-- The environment seen by the orchestrator: the raw `tavily` client call
(which may fail) and the wall-clock duration of a provider call for each
query. -/
structure SearchEnv where
  raw : String → Nat → Except String (List SearchResult)
  callTime : String → Nat

/-- Method `TavilySearchAPI.search` (`search_apis.py`, lines 46–69): issue one raw
provider call; any failure is caught and converted to the empty result list
(`except Exception: return []`). -/
def tavilySearch (env : SearchEnv) (query : String) (maxResults : Nat) :
    List SearchResult :=
  match env.raw query maxResults with
  | .ok results => results
  | .error _ => []

/-! ### PhasedSearchOrchestrator -/

/-- The `search_stats` dictionary of `PhasedSearchOrchestrator`. -/
structure SearchStats where
  totalQueries : Nat
  totalSearches : Nat
  cacheHits : Nat
  duplicatesPrevented : Nat
deriving Repr, DecidableEq

/-- The mutable state of a `PhasedSearchOrchestrator` instance: the shared
cache, the duplicate detector's registry plus threshold, the statistics, and
the configured budget `max_searches_per_query`. -/
structure OrchSt where
  cache : SearchCache
  registry : List (String × String)
  simThreshold : ℚ
  stats : SearchStats
  maxSearches : Nat
deriving Repr, DecidableEq

/-- Loop state of `execute_initial_search_wave`: the results dictionary, the
local `search_count`, the orchestrator state, the model clock, and the trace
of queries actually sent to the external provider. -/
structure WaveState where
  ctxs : List (String × HatSearchContext)
  count : Nat
  st : OrchSt
  now : Nat
  trace : List String
deriving Repr, DecidableEq

/-- Assignment `results[hat_type] = ctx` on the results dictionary: overwrite the key
when present, append otherwise. -/
def dictInsert (ctxs : List (String × HatSearchContext)) (hat : String)
    (ctx : HatSearchContext) : List (String × HatSearchContext) :=
  if ctxs.any (fun p => p.1 == hat) then
    ctxs.map (fun p => if p.1 == hat then (hat, ctx) else p)
  else
    ctxs ++ [(hat, ctx)]

/-- The duplicate branch of the wave loop (lines 202–220 of
`phased_search_orchestrator.py`): bump `duplicates_prevented`, read the cache
keyed on the **current** query and hat (the source passes `search_query`,
not the matched query), and add a `cache_hit` context only when the cached
list is truthy (present and non-empty).  `search_count` is incremented in
every case. -/
def dupStep (w : WaveState) (hat query : String) (matched : Option String) :
    WaveState :=
  ⟨(match (w.st.cache.get query hat w.now).1 with
    | some rs =>
      if rs.isEmpty then w.ctxs
      else dictInsert w.ctxs hat
        ⟨hat, query, rs, true, 0, ⟨query.length, rs.length, matched, none⟩⟩
    | none => w.ctxs),
   w.count + 1,
   { w.st with
     cache := (w.st.cache.get query hat w.now).2,
     stats := { w.st.stats with
       duplicatesPrevented := w.st.stats.duplicatesPrevented + 1 } },
   w.now, w.trace⟩

/-- The cache-hit branch of the wave loop (lines 225–258): `cache_hit` is
`cached_results is not None`, so even an empty cached list is a hit; the
measured elapsed time of the in-memory lookup is zero in the model. -/
def hitStep (w : WaveState) (hat query : String) (rs : List SearchResult)
    (cache1 : SearchCache) : WaveState :=
  ⟨dictInsert w.ctxs hat
      ⟨hat, query, rs, true, 0, ⟨query.length, rs.length, none, none⟩⟩,
    w.count + 1,
    { w.st with
      cache := cache1,
      stats := { w.st.stats with cacheHits := w.st.stats.cacheHits + 1 } },
    w.now, w.trace⟩

/-- The full-miss branch of the wave loop (lines 231–258): one provider call
via `TavilySearchAPI.search` (logged in the trace, advancing the clock by its
duration), results cached under the current query and hat, query registered
in the duplicate detector, elapsed time the provider-call duration. -/
def freshStep (env : SearchEnv) (w : WaveState) (hat query : String)
    (cache1 : SearchCache) : WaveState :=
  ⟨dictInsert w.ctxs hat
      ⟨hat, query, tavilySearch env query 5, false, env.callTime query,
        ⟨query.length, (tavilySearch env query 5).length, none, none⟩⟩,
    w.count + 1,
    { w.st with
      cache := cache1.set query hat (tavilySearch env query 5)
        (w.now + env.callTime query),
      registry := w.st.registry ++ [(query, hat)] },
    w.now + env.callTime query, w.trace ++ [query]⟩

/-- The `for hat_type, search_query in hat_search_queries.items()` loop of
`execute_initial_search_wave` (lines 195–258).  The loop breaks outright once
`search_count` reaches `max_searches`; otherwise each item takes the
duplicate, cache-hit or full-miss branch.  The local `registered_queries`
snapshot and the detector registry start equal and are appended identically,
so both are represented by `st.registry`. -/
def waveLoop (env : SearchEnv) : List (String × String) → WaveState → WaveState
  | [], w => w
  | (hat, query) :: rest, w =>
    if w.st.maxSearches ≤ w.count then w
    else if (isDuplicate w.st.simThreshold query w.st.registry).1 then
      waveLoop env rest
        (dupStep w hat query (isDuplicate w.st.simThreshold query w.st.registry).2)
    else
      match (w.st.cache.get query hat w.now).1 with
      | some rs =>
        waveLoop env rest (hitStep w hat query rs (w.st.cache.get query hat w.now).2)
      | none =>
        waveLoop env rest (freshStep env w hat query (w.st.cache.get query hat w.now).2)

/-- Method `PhasedSearchOrchestrator.execute_initial_search_wave` (lines 178–264):
run the loop from an empty results dictionary and `search_count = 0`, then
fold the wave's `search_count` into `total_searches` and bump
`total_queries`. -/
def executeInitialSearchWave (env : SearchEnv)
    (hatSearchQueries : List (String × String)) (st : OrchSt) (now : Nat) :
    WaveState :=
  let w := waveLoop env hatSearchQueries ⟨[], 0, st, now, []⟩
  { w with st := { w.st with stats := { w.st.stats with
      totalSearches := w.st.stats.totalSearches + w.count,
      totalQueries := w.st.stats.totalQueries + 1 } } }

/-- Method `PhasedSearchOrchestrator.execute_sequential_search` (lines 266–338).
Returns the optional context together with the updated orchestrator state,
the advanced clock, and the trace of provider calls made (length at most
one). -/
def executeSequentialSearch (env : SearchEnv) (hatType query : String)
    (currentBudgetUsed : Nat) (st : OrchSt) (now : Nat) :
    Option HatSearchContext × OrchSt × Nat × List String :=
  if st.maxSearches ≤ currentBudgetUsed then (none, st, now, [])
  else if hatType == "blue" then (none, st, now, [])
  else if (isDuplicate st.simThreshold query st.registry).1 then
    (none,
     { st with stats := { st.stats with
         duplicatesPrevented := st.stats.duplicatesPrevented + 1 } },
     now, [])
  else
    match (st.cache.get query hatType now).1 with
    | some rs =>
      (some ⟨hatType, query, rs, true, 0,
          ⟨query.length, rs.length, none, some "sequential"⟩⟩,
       { st with
         cache := (st.cache.get query hatType now).2,
         stats := { st.stats with
           cacheHits := st.stats.cacheHits + 1,
           totalSearches := st.stats.totalSearches + 1 } },
       now, [])
    | none =>
      (some ⟨hatType, query, tavilySearch env query 5, false,
          env.callTime query,
          ⟨query.length, (tavilySearch env query 5).length, none,
            some "sequential"⟩⟩,
       { st with
         cache := (st.cache.get query hatType now).2.set query hatType
           (tavilySearch env query 5) (now + env.callTime query),
         registry := st.registry ++ [(query, hatType)],
         stats := { st.stats with
           totalSearches := st.stats.totalSearches + 1 } },
       now + env.callTime query, [query])

/-- The green-hat/blue-hat sequential stage of one workflow run
(`phased_workflow_graph.py`): after the initial wave, `_green_hat_node`
computes `budget_used = len(search_contexts)` and may call
`execute_sequential_search` for the green hat with that figure; the model
always attempts the call (the function's own budget guard subsumes the
node's `budget_used < max_searches` test, and attempting it upper-bounds
the gated original).  `_blue_hat_node` never calls
`execute_sequential_search`, so one session makes at most this one
sequential attempt. -/
structure SessionOut where
  wave : WaveState
  greenCtx : Option HatSearchContext
  st : OrchSt
  now : Nat
  trace : List String
deriving Repr, DecidableEq

/-- One orchestration session: the initial parallel wave over the allocated
hats' queries, then the sequential green-hat attempt with
`current_budget_used = len(search_contexts)`. -/
def runSession (env : SearchEnv) (hatSearchQueries : List (String × String))
    (greenQuery : String) (st : OrchSt) (now : Nat) : SessionOut :=
  let w := executeInitialSearchWave env hatSearchQueries st now
  let budgetUsed := w.ctxs.length
  let s := executeSequentialSearch env "green" greenQuery budgetUsed w.st w.now
  ⟨w, s.1, s.2.1, s.2.2.1, w.trace ++ s.2.2.2⟩

/-! ### ManagerAgent -/

/-- The `Complexity` enum of `manager_agent.py`. -/
inductive Complexity where
  | simple
  | moderate
  | complex
deriving Repr, DecidableEq

/-- The `Topic` enum of `manager_agent.py`. -/
inductive Topic where
  | business
  | health
  | technology
  | emotional
  | social
  | general
  | safety
deriving Repr, DecidableEq

/-- The `HatType` enum of `manager_agent.py`. -/
inductive HatType where
  | white
  | red
  | yellow
  | black
  | green
  | blue
deriving Repr, DecidableEq

/-- The `SearchPriority` enum of `manager_agent.py`. -/
inductive SearchPriority where
  | critical
  | high
  | medium
  | low
  | never
deriving Repr, DecidableEq

/-- The technical-term vocabulary of `_determine_complexity` (line 130),
matched with `\b` word boundaries against `query.lower()`.  `"AI"` and
`"ML"` are upper-case in the source pattern, hence unmatched in a
lower-cased subject. -/
def technicalTerms : List String :=
  ["algorithm", "quantum", "crypto", "blockchain", "AI", "ML", "neural",
   "bioinformatics", "pharmacology"]

/-- The comparative vocabulary of `_determine_complexity` (line 132). -/
def comparativeTerms : List String :=
  ["compare", "versus", "difference", "trade-off", "pros/cons", "advantage",
   "disadvantage"]

/-- Condition `len(query.split()) > 15` of `_determine_complexity`. -/
def wordCountOver15 (query : String) : Bool :=
  decide (15 < (pysplit query).length)

/-- Flag `has_technical_terms` of `_determine_complexity`. -/
def hasTechnicalTerms (query : String) : Bool :=
  hasTermWB technicalTerms (strLower query)

/-- Flag `has_multiple_parts` of `_determine_complexity`:
`query.count('?') > 1 or query.count(' and ') > 0 or query.count(',') > 2`.
A positive non-overlapping count of `' and '` is the same as a substring
occurrence. -/
def hasMultipleParts (query : String) : Bool :=
  decide (1 < countChar '?' query) || strContains " and " query ||
    decide (2 < countChar ',' query)

/-- Flag `has_comparative_terms` of `_determine_complexity`. -/
def hasComparativeTerms (query : String) : Bool :=
  hasTermWB comparativeTerms (strLower query)

/-- Method `ManagerAgent._determine_complexity` (lines 120–151), translated
statement by statement: the score accumulates through the four `if`s, then
the thresholds classify. -/
def determineComplexity (query : String) : Complexity :=
  let score : Nat := 0
  let score := if wordCountOver15 query then score + 1 else score
  let score := if hasTechnicalTerms query then score + 2 else score
  let score := if hasMultipleParts query then score + 1 else score
  let score := if hasComparativeTerms query then score + 1 else score
  if score ≤ 1 then .simple
  else if score ≤ 3 then .moderate
  else .complex

/-- The `topic_keywords` table of `_classify_topic` (lines 156–187), in
declaration order. -/
def topicKeywords : List (Topic × List String) :=
  [(.business,
    ["business", "company", "startup", "entrepreneur", "revenue", "profit",
     "market", "competition", "strategy", "investment", "funding", "IPO",
     "merger", "acquisition", "venture", "ROI", "sales", "customer"]),
   (.health,
    ["health", "medical", "disease", "treatment", "therapy", "doctor",
     "hospital", "medicine", "drug", "symptom", "diagnosis", "healthcare",
     "wellness", "nutrition", "exercise", "fitness", "mental health"]),
   (.technology,
    ["technology", "software", "programming", "AI", "machine learning",
     "data", "algorithm", "tech", "digital", "computer", "internet",
     "cloud", "cybersecurity", "blockchain", "quantum", "robotics"]),
   (.emotional,
    ["feel", "emotion", "feeling", "sad", "happy", "angry", "anxious",
     "relationship", "love", "family", "friendship", "personal",
     "mood", "psychology", "mental", "self-esteem", "confidence"]),
   (.social,
    ["society", "social", "community", "culture", "political",
     "government", "policy", "law", "ethics", "justice", "equality",
     "diversity", "public", "social media", "news", "controversy"]),
   (.safety,
    ["safety", "risk", "danger", "hazard", "security", "threat",
     "vulnerability", "accident", "injury", "harm", "warning",
     "liability", "insurance", "precaution"])]

/-- Keyword score of one topic: the number of its keywords occurring as
substrings of the lower-cased query (`keyword in query_lower`). -/
def topicScore (queryLower : String) (keywords : List String) : Nat :=
  keywords.countP (fun k => strContains k queryLower)

/-- First topic attaining the maximum score among those listed, mirroring
Python `max(topic_scores, key=topic_scores.get)` over the insertion-ordered
dictionary of positive scores. -/
def firstMaxTopic (queryLower : String) :
    List (Topic × List String) → Option (Topic × Nat)
  | [] => none
  | (t, kws) :: rest =>
    let s := topicScore queryLower kws
    match firstMaxTopic queryLower rest with
    | none => if 0 < s then some (t, s) else none
    | some (t2, s2) =>
      if 0 < s then
        if s2 ≤ s then some (t, s) else some (t2, s2)
      else some (t2, s2)

/-- Method `ManagerAgent._classify_topic` (lines 153–202): highest positive keyword
score wins, declaration order breaks ties, `GENERAL` when every score is
zero. -/
def classifyTopic (query : String) : Topic :=
  match firstMaxTopic (strLower query) topicKeywords with
  | some (t, _) => t
  | none => .general

/-- Method `ManagerAgent._determine_search_priorities` (lines 204–255), keeping the
dictionary's insertion order `white, red, yellow, black, green, blue`. -/
def determineSearchPriorities (query : String) (complexity : Complexity)
    (topic : Topic) : List (HatType × SearchPriority) :=
  let ql := strLower query
  let redP : SearchPriority :=
    if topic = .emotional ∨ topic = .social ∨
        (["feel", "emotion", "reaction", "response", "sentiment"].any
          (fun w => strContains w ql)) then .high else .medium
  let yellowP : SearchPriority :=
    if topic = .business ∨ complexity = .complex ∨
        (["benefit", "advantage", "opportunity", "success", "positive"].any
          (fun w => strContains w ql)) then .high else .medium
  let blackP : SearchPriority :=
    if topic = .health ∨ topic = .safety ∨
        (["risk", "problem", "failure", "danger", "criticism"].any
          (fun w => strContains w ql)) then .high else .medium
  let greenP : SearchPriority :=
    if complexity = .complex ∨
        (["creative", "innovation", "alternative", "solution", "breakthrough"].any
          (fun w => strContains w ql)) then .medium else .low
  [(.white, .critical), (.red, redP), (.yellow, yellowP), (.black, blackP),
   (.green, greenP), (.blue, .low)]

/-- Helper `should_allocate` of `_allocate_search_budget` (lines 267–275):
CRITICAL, HIGH and MEDIUM are eligible, LOW and NEVER are not. -/
def shouldAllocate : SearchPriority → Bool
  | .critical => true
  | .high => true
  | .medium => true
  | .low => false
  | .never => false

/-- The `priority_order` ranking of `_allocate_search_budget`
(lines 284–290). -/
def priorityRank : SearchPriority → Nat
  | .critical => 0
  | .high => 1
  | .medium => 2
  | .low => 3
  | .never => 4

/-- The sorted, truncated allocation before the mandatory-inclusion fix-up
(lines 278–295): eligible candidates, stably sorted by priority rank, first
four taken.  Python's `list.sort` is stable; any stable sort computes the
same list, here `List.insertionSort` with the non-strict rank order. -/
def truncatedAllocation (recs : List (HatType × SearchPriority)) :
    List HatType :=
  ((List.insertionSort (fun a b => priorityRank a.2 ≤ priorityRank b.2)
      (recs.filter (fun x => shouldAllocate x.2))).take 4).map Prod.fst

/-- Method `ManagerAgent._allocate_search_budget` (lines 257–303).  The
mandatory-inclusion fix-up runs whenever the white hat is absent from the
truncated list but present among the priority map's keys; it pops the last
(lowest-priority) entry and inserts the white hat at the front.  `allocated.pop()`
on an empty list raises `IndexError`, modelled as `none`. -/
def allocateSearchBudget (recs : List (HatType × SearchPriority)) :
    Option (List HatType) :=
  let allocated := truncatedAllocation recs
  if HatType.white ∉ allocated ∧ HatType.white ∈ recs.map Prod.fst then
    match allocated with
    | [] => none
    | _ :: _ => some (HatType.white :: allocated.dropLast)
  else
    some allocated

/-- The `budget_allocation` field computed by `ManagerAgent.analyze_query`
(lines 84–118): allocation of the priorities derived from the query's
complexity and topic. -/
def analyzeQueryBudgetAllocation (query : String) : Option (List HatType) :=
  allocateSearchBudget
    (determineSearchPriorities query (determineComplexity query)
      (classifyTopic query))

/-! ### Spec-side restatement of the complexity rule -/

/-- The complexity scoring rule exactly as the specification words it: start
at 0; +1 if the token count exceeds 15; +2 if a technical-term vocabulary
match is found; +1 if the text contains multiple clauses; +1 if comparison
vocabulary is present — written as one sum, to be compared with the
imperative accumulation of `determineComplexity`. -/
def specComplexityScore (query : String) : Nat :=
  (if wordCountOver15 query then 1 else 0) +
  (if hasTechnicalTerms query then 2 else 0) +
  (if hasMultipleParts query then 1 else 0) +
  (if hasComparativeTerms query then 1 else 0)

/-- The specification's classification of the score: at most 1 is SIMPLE,
2 to 3 is MODERATE, 4 or more is COMPLEX. -/
def specComplexityClass (query : String) : Complexity :=
  if specComplexityScore query ≤ 1 then .simple
  else if specComplexityScore query ≤ 3 then .moderate
  else .complex

/-! ### Concrete instances used by witnesses and counterexamples -/

/-- A sample provider result. -/
def sampleResult : SearchResult := ⟨"t", "u", "c", 1⟩

/-- A provider that always answers `[sampleResult]`, each call taking 7
model seconds. -/
def okProviderEnv : SearchEnv := ⟨fun _ _ => .ok [sampleResult], fun _ => 7⟩

/-- A provider whose every raw call fails. -/
def failProviderEnv : SearchEnv := ⟨fun _ _ => .error "timeout", fun _ => 7⟩

/-- The default similarity threshold 0.8 as an exact rational. -/
def thr08 : ℚ := mkRat 4 5

/-- Orchestrator state with budget 1 and the pair `("q1", "white")` already
cached: exercises a cache hit consuming the only budget unit. -/
def cacheHitSt : OrchSt :=
  ⟨⟨[⟨cacheKey "q1" "white", [sampleResult], 0⟩], 3600⟩, [], thr08,
    ⟨0, 0, 0, 0⟩, 1⟩

/-- Orchestrator state where the query `"a b c d e"` was registered by the
white hat in an earlier round and its results are cached, so a later
near-duplicate (`"a b c d"`, Jaccard similarity 4/5) is flagged against it. -/
def dupRegisteredSt : OrchSt :=
  ⟨⟨[⟨cacheKey "a b c d e" "white", [sampleResult], 0⟩], 3600⟩,
    [("a b c d e", "white")], thr08, ⟨0, 0, 0, 0⟩, 4⟩

/-- Orchestrator state with budget 1, empty cache and empty registry. -/
def freshSt : OrchSt := ⟨⟨[], 3600⟩, [], thr08, ⟨0, 0, 0, 0⟩, 1⟩

/-- The environment `env` with the raw provider patched to answer the empty
`ok` list on `badQuery`. -/
def patchEnv (env : SearchEnv) (badQuery : String) : SearchEnv :=
  ⟨fun q n => if q == badQuery then .ok [] else env.raw q n, env.callTime⟩

/-- Orchestrator state where the near-duplicate pair from
`dupRegisteredSt` additionally has the *current* query's own results
cached, so the duplicate branch's cache lookup succeeds. -/
def dupCachedCurrentSt : OrchSt :=
  ⟨⟨[⟨cacheKey "a b c d" "white", [sampleResult], 0⟩], 3600⟩,
    [("a b c d e", "white")], thr08, ⟨0, 0, 0, 0⟩, 4⟩

/-! ## Helper lemmas -/

theorem find?_append_of_none {α : Type} {l₁ : List α} (l₂ : List α)
    {p : α → Bool} (h : l₁.find? p = none) :
    (l₁ ++ l₂).find? p = l₂.find? p := by
  induction l₁ with
  | nil => rfl
  | cons a l ih =>
    rw [List.cons_append]
    cases hpa : p a with
    | true =>
      rw [List.find?_cons_of_pos _ hpa] at h
      exact absurd h (by simp)
    | false =>
      rw [List.find?_cons_of_neg _ (by simp [hpa])] at h
      rw [List.find?_cons_of_neg _ (by simp [hpa])]
      exact ih h

theorem find?_filter_ne (l : List CacheEntry) (k : String) :
    (l.filter (fun e => e.key != k)).find? (fun e => e.key == k) = none := by
  rw [List.find?_eq_none]
  intro e he
  have h2 := (List.mem_filter.mp he).2
  simp only [bne_iff_ne, ne_eq] at h2
  simp [h2]

theorem find?_set_self (c : SearchCache) (q p : String)
    (R : List SearchResult) (now : Nat) :
    (c.set q p R now).entries.find? (fun e => e.key == cacheKey q p) =
      some ⟨cacheKey q p, R, now⟩ := by
  simp only [SearchCache.set]
  rw [find?_append_of_none _ (find?_filter_ne c.entries (cacheKey q p))]
  simp [List.find?]

/-! ## C5 — cache round trip and lazy expiry -/

/-- C5: immediately after `SearchCache.set(p, q, R)`, `get(p, q)` returns
`R`; once the TTL has elapsed since the write, `get(p, q)` misses and the
expired entry is deleted by the read. -/
theorem c5_cache_roundtrip (c : SearchCache) (p q : String)
    (R : List SearchResult) (now later : Nat) (httl : 0 < c.ttlSeconds)
    (hexp : c.ttlSeconds ≤ later - now) :
    ((c.set q p R now).get q p now).1 = some R ∧
    ((c.set q p R now).get q p later).1 = none ∧
    ((c.set q p R now).get q p later).2.entries.find?
      (fun e => e.key == cacheKey q p) = none := by
  have hts : (c.set q p R now).ttlSeconds = c.ttlSeconds := rfl
  refine ⟨?_, ?_, ?_⟩
  · simp only [SearchCache.get, find?_set_self]
    rw [if_pos (by rw [hts]; omega)]
  · simp only [SearchCache.get, find?_set_self]
    rw [if_neg (by rw [hts]; omega)]
  · simp only [SearchCache.get, find?_set_self]
    rw [if_neg (by rw [hts]; omega)]
    exact find?_filter_ne _ _

/-- C5 witness: a concrete round trip with the default TTL of 3600
seconds. -/
theorem c5_cache_roundtrip_witness :
    (((SearchCache.mk [] 3600).set "q" "white" [sampleResult] 0).get
        "q" "white" 0).1 = some [sampleResult] ∧
    (((SearchCache.mk [] 3600).set "q" "white" [sampleResult] 0).get
        "q" "white" 3600).1 = none ∧
    (((SearchCache.mk [] 3600).set "q" "white" [sampleResult] 0).get
        "q" "white" 3600).2.entries.find?
      (fun e => e.key == cacheKey "q" "white") = none := by
  have h := c5_cache_roundtrip (SearchCache.mk [] 3600) "white" "q"
    [sampleResult] 0 3600 (by decide) (by decide)
  exact ⟨h.1, h.2.1, h.2.2⟩

/-! ## C6 — symmetry of duplicate detection -/

/-- C6 counterexample: with the default threshold, `"a b c d e"` against a
registry holding `"a b c d"` and the same comparison in the other direction
both flag a duplicate, but the returned pairs differ in their matched-query
component, so the two `is_duplicate` results are not equal as stated. -/
theorem c6_counterexample :
    isDuplicate thr08 "a b c d e" [("a b c d", "h")] ≠
      isDuplicate thr08 "a b c d" [("a b c d e", "h")] := by decide

/-- C6 amended: the duplicate *flag* is symmetric — for any two query
strings, any registrants and any threshold, `is_duplicate(a, [(b, h)])` and
`is_duplicate(b, [(a, h)])` agree in their boolean component, because the
Jaccard similarity over lower-cased whitespace-token sets is symmetric.
(The matched-query components are `b` and `a` respectively, so the full
pairs differ whenever `a ≠ b` and the flag is set.) -/
theorem c6_flag_symmetric (threshold : ℚ) (a b h1 h2 : String) :
    (isDuplicate threshold a [(b, h1)]).1 =
      (isDuplicate threshold b [(a, h2)]).1 := by
  have hsym : jaccardMeets threshold a b = jaccardMeets threshold b a := by
    unfold jaccardMeets
    rw [Finset.inter_comm, Finset.union_comm]
  simp only [isDuplicate]
  rw [hsym]
  cases jaccardMeets threshold b a <;> simp [isDuplicate]

/-! ## C9 — the blue hat never searches sequentially -/

/-- C9: for every query, budget figure, state and clock, a sequential search
request for the blue (synthesis) hat returns `None` and leaves the
orchestrator state (cache, registry, statistics) untouched, performs no
provider call (empty trace) and does not advance the clock — a fixed policy,
independent of the budget. -/
theorem c9_blue_never_searches (env : SearchEnv) (query : String)
    (budget : Nat) (st : OrchSt) (now : Nat) :
    executeSequentialSearch env "blue" query budget st now =
      (none, st, now, []) := by
  unfold executeSequentialSearch
  split
  · rfl
  · simp

/-! ### Results-dictionary lemmas -/

theorem find?_map_replace (ctxs : List (String × HatSearchContext))
    (hat : String) (ctx : HatSearchContext)
    (h : ctxs.any (fun p => p.1 == hat) = true) :
    (ctxs.map (fun p => if p.1 == hat then (hat, ctx) else p)).find?
        (fun p => p.1 == hat) = some (hat, ctx) := by
  induction ctxs with
  | nil => simp at h
  | cons p ps ih =>
    cases hb : (p.1 == hat) with
    | true => simp [hb, List.find?]
    | false =>
      have h' : ps.any (fun p => p.1 == hat) = true := by
        simpa [hb] using h
      rw [List.map_cons, if_neg (by simp [hb]),
        List.find?_cons_of_neg _ (by simp [hb])]
      exact ih h'

theorem find?_dictInsert (ctxs : List (String × HatSearchContext))
    (hat : String) (ctx : HatSearchContext) :
    (dictInsert ctxs hat ctx).find? (fun p => p.1 == hat) =
      some (hat, ctx) := by
  unfold dictInsert
  split
  case isTrue hany => exact find?_map_replace ctxs hat ctx hany
  case isFalse hany =>
    have hfalse : ctxs.any (fun p => p.1 == hat) = false := by
      simp only [Bool.not_eq_true] at hany; exact hany
    have hnone : ctxs.find? (fun p => p.1 == hat) = none :=
      List.find?_eq_none.mpr (List.any_eq_false.mp hfalse)
    rw [find?_append_of_none _ hnone]
    simp [List.find?]

theorem length_dictInsert_ge (ctxs : List (String × HatSearchContext))
    (hat : String) (ctx : HatSearchContext) :
    ctxs.length ≤ (dictInsert ctxs hat ctx).length := by
  unfold dictInsert
  split <;> simp

theorem length_dictInsert_of_not_mem
    (ctxs : List (String × HatSearchContext)) (hat : String)
    (ctx : HatSearchContext) (h : hat ∉ ctxs.map Prod.fst) :
    (dictInsert ctxs hat ctx).length = ctxs.length + 1 := by
  unfold dictInsert
  rw [if_neg]
  · simp
  · simp only [List.any_eq_true]
    rintro ⟨p, hp, hb⟩
    exact h (List.mem_map.mpr ⟨p, hp, beq_iff_eq.mp hb⟩)

theorem keys_dictInsert (ctxs : List (String × HatSearchContext))
    (hat : String) (ctx : HatSearchContext) :
    ∀ k ∈ (dictInsert ctxs hat ctx).map Prod.fst,
      k ∈ ctxs.map Prod.fst ∨ k = hat := by
  unfold dictInsert
  split
  · intro k hk
    rcases List.mem_map.mp hk with ⟨p, hp, rfl⟩
    rcases List.mem_map.mp hp with ⟨q, hq, rfl⟩
    by_cases hb : (q.1 == hat) = true
    · rw [if_pos hb]; right; rfl
    · rw [if_neg hb]; left; exact List.mem_map.mpr ⟨q, hq, rfl⟩
  · intro k hk
    rw [List.map_append] at hk
    rcases List.mem_append.mp hk with h1 | h2
    · left; exact h1
    · right; simpa using h2

/-! ### Step lemmas for the wave loop -/

theorem dupStep_ctxs_of_hit (w : WaveState) (hat q : String)
    (m : Option String) (rs : List SearchResult)
    (hget : (w.st.cache.get q hat w.now).1 = some rs)
    (hne : rs.isEmpty = false) :
    (dupStep w hat q m).ctxs =
      dictInsert w.ctxs hat
        ⟨hat, q, rs, true, 0, ⟨q.length, rs.length, m, none⟩⟩ := by
  unfold dupStep
  dsimp only
  rw [hget]
  simp [hne]

theorem dupStep_ctxs_ge (w : WaveState) (hat q : String)
    (m : Option String) :
    w.ctxs.length ≤ (dupStep w hat q m).ctxs.length := by
  show w.ctxs.length ≤
    (match (w.st.cache.get q hat w.now).1 with
      | some rs =>
        if rs.isEmpty then w.ctxs
        else dictInsert w.ctxs hat
          ⟨hat, q, rs, true, 0, ⟨q.length, rs.length, m, none⟩⟩
      | none => w.ctxs).length
  cases (w.st.cache.get q hat w.now).1 with
  | none => exact le_rfl
  | some rs =>
    by_cases he : rs.isEmpty
    · simp [he]
    · simp only [he, if_false]
      exact length_dictInsert_ge _ _ _

theorem dupStep_keys (w : WaveState) (hat q : String) (m : Option String) :
    ∀ k ∈ (dupStep w hat q m).ctxs.map Prod.fst,
      k ∈ w.ctxs.map Prod.fst ∨ k = hat := by
  show ∀ k ∈ (match (w.st.cache.get q hat w.now).1 with
      | some rs =>
        if rs.isEmpty then w.ctxs
        else dictInsert w.ctxs hat
          ⟨hat, q, rs, true, 0, ⟨q.length, rs.length, m, none⟩⟩
      | none => w.ctxs).map Prod.fst, _
  cases (w.st.cache.get q hat w.now).1 with
  | none => intro k hk; left; exact hk
  | some rs =>
    by_cases he : rs.isEmpty
    · simp only [he, if_true]
      intro k hk; left; exact hk
    · simp only [he, if_false]
      exact keys_dictInsert _ _ _

theorem hitStep_ctxs_ge (w : WaveState) (hat q : String)
    (rs : List SearchResult) (c : SearchCache) :
    w.ctxs.length ≤ (hitStep w hat q rs c).ctxs.length :=
  length_dictInsert_ge _ _ _

theorem hitStep_keys (w : WaveState) (hat q : String)
    (rs : List SearchResult) (c : SearchCache) :
    ∀ k ∈ (hitStep w hat q rs c).ctxs.map Prod.fst,
      k ∈ w.ctxs.map Prod.fst ∨ k = hat :=
  keys_dictInsert _ _ _

theorem freshStep_ctxs_len (env : SearchEnv) (w : WaveState)
    (hat q : String) (c : SearchCache) (h : hat ∉ w.ctxs.map Prod.fst) :
    (freshStep env w hat q c).ctxs.length = w.ctxs.length + 1 :=
  length_dictInsert_of_not_mem _ _ _ h

theorem freshStep_keys (env : SearchEnv) (w : WaveState) (hat q : String)
    (c : SearchCache) :
    ∀ k ∈ (freshStep env w hat q c).ctxs.map Prod.fst,
      k ∈ w.ctxs.map Prod.fst ∨ k = hat :=
  keys_dictInsert _ _ _

/-! ### The wave-loop budget invariant -/

/-- Arithmetic combination of one loop step with the invariant of the
remaining iterations. -/
theorem waveStep_combine (w w' r : WaveState)
    (i1 : r.st.maxSearches = w'.st.maxSearches)
    (i2 : w'.count ≤ r.count)
    (i3 : w'.count ≤ w'.st.maxSearches → r.count ≤ w'.st.maxSearches)
    (i4 : r.trace.length + w'.count ≤ w'.trace.length + r.count)
    (i5 : r.trace.length + w'.ctxs.length ≤
      w'.trace.length + r.ctxs.length)
    (hmax : w'.st.maxSearches = w.st.maxSearches)
    (hcount : w'.count = w.count + 1)
    (htr : w'.trace.length ≤ w.trace.length + 1)
    (hkey : w'.trace.length + w.ctxs.length ≤
      w.trace.length + w'.ctxs.length)
    (hlt : w.count < w.st.maxSearches) :
    r.st.maxSearches = w.st.maxSearches ∧ w.count ≤ r.count ∧
    (w.count ≤ w.st.maxSearches → r.count ≤ w.st.maxSearches) ∧
    r.trace.length + w.count ≤ w.trace.length + r.count ∧
    r.trace.length + w.ctxs.length ≤ w.trace.length + r.ctxs.length := by
  rw [hmax] at i1 i3
  refine ⟨i1, by omega, fun h => ?_, by omega, by omega⟩
  have h3 := i3 (by omega)
  omega

/-- The invariant of `execute_initial_search_wave`'s loop: the budget field
is untouched, `search_count` never exceeds the budget, the number of
provider calls (trace growth) is bounded by the `search_count` growth, and —
when the pending hats are distinct and not yet in the results dictionary —
also by the growth of the results dictionary. -/
theorem waveLoop_invariant (env : SearchEnv) :
    ∀ (pend : List (String × String)) (w : WaveState),
      (pend.map Prod.fst).Nodup →
      (∀ k ∈ pend.map Prod.fst, k ∉ w.ctxs.map Prod.fst) →
      ((waveLoop env pend w).st.maxSearches = w.st.maxSearches ∧
       w.count ≤ (waveLoop env pend w).count ∧
       (w.count ≤ w.st.maxSearches →
         (waveLoop env pend w).count ≤ w.st.maxSearches) ∧
       (waveLoop env pend w).trace.length + w.count ≤
         w.trace.length + (waveLoop env pend w).count ∧
       (waveLoop env pend w).trace.length + w.ctxs.length ≤
         w.trace.length + (waveLoop env pend w).ctxs.length) := by
  intro pend
  induction pend with
  | nil =>
    intro w _ _
    exact ⟨rfl, le_rfl, fun h => h, le_rfl, le_rfl⟩
  | cons hq rest ih =>
    obtain ⟨hat, q⟩ := hq
    intro w hnd hdisj
    have hhat : hat ∉ rest.map Prod.fst := by
      have := hnd
      simp only [List.map_cons, List.nodup_cons] at this
      exact this.1
    have hnd' : (rest.map Prod.fst).Nodup := by
      have := hnd
      simp only [List.map_cons, List.nodup_cons] at this
      exact this.2
    have hdisjhat : hat ∉ w.ctxs.map Prod.fst :=
      hdisj hat (by simp)
    have hdisjrest : ∀ k ∈ rest.map Prod.fst, k ∉ w.ctxs.map Prod.fst :=
      fun k hk => hdisj k (by simp [hk])
    rw [waveLoop]
    split
    case isTrue hbreak =>
      exact ⟨rfl, le_rfl, fun h => h, le_rfl, le_rfl⟩
    case isFalse hbreak =>
      have hlt : w.count < w.st.maxSearches := by omega
      split
      case isTrue hdup =>
        have hdisj' : ∀ k ∈ rest.map Prod.fst,
            k ∉ (dupStep w hat q (isDuplicate w.st.simThreshold q
              w.st.registry).2).ctxs.map Prod.fst := by
          intro k hk hmem
          rcases dupStep_keys w hat q _ k hmem with h1 | rfl
          · exact hdisjrest k hk h1
          · exact hhat hk
        obtain ⟨i1, i2, i3, i4, i5⟩ := ih _ hnd' hdisj'
        have htreq : (dupStep w hat q
            (isDuplicate w.st.simThreshold q w.st.registry).2).trace =
              w.trace := rfl
        have hcge := dupStep_ctxs_ge w hat q
          (isDuplicate w.st.simThreshold q w.st.registry).2
        exact waveStep_combine w _ _ i1 i2 i3 i4 i5 rfl rfl
          (by rw [htreq]; omega) (by rw [htreq]; omega) hlt
      case isFalse hdup =>
        split
        case h_1 rs hg =>
          have hdisj' : ∀ k ∈ rest.map Prod.fst,
              k ∉ (hitStep w hat q rs
                (w.st.cache.get q hat w.now).2).ctxs.map Prod.fst := by
            intro k hk hmem
            rcases hitStep_keys w hat q rs _ k hmem with h1 | rfl
            · exact hdisjrest k hk h1
            · exact hhat hk
          obtain ⟨i1, i2, i3, i4, i5⟩ := ih _ hnd' hdisj'
          have htreq : (hitStep w hat q rs
              (w.st.cache.get q hat w.now).2).trace = w.trace := rfl
          have hcge := hitStep_ctxs_ge w hat q rs
            (w.st.cache.get q hat w.now).2
          exact waveStep_combine w _ _ i1 i2 i3 i4 i5 rfl rfl
            (by rw [htreq]; omega) (by rw [htreq]; omega) hlt
        case h_2 hg =>
          have hdisj' : ∀ k ∈ rest.map Prod.fst,
              k ∉ (freshStep env w hat q
                (w.st.cache.get q hat w.now).2).ctxs.map Prod.fst := by
            intro k hk hmem
            rcases freshStep_keys env w hat q _ k hmem with h1 | rfl
            · exact hdisjrest k hk h1
            · exact hhat hk
          obtain ⟨i1, i2, i3, i4, i5⟩ := ih _ hnd' hdisj'
          have hfl := freshStep_ctxs_len env w hat q
            (w.st.cache.get q hat w.now).2 hdisjhat
          have hftr : (freshStep env w hat q
              (w.st.cache.get q hat w.now).2).trace.length =
                w.trace.length + 1 := by
            show (w.trace ++ [q]).length = w.trace.length + 1
            simp
          exact waveStep_combine w _ _ i1 i2 i3 i4 i5 rfl rfl
            (by omega) (by omega) hlt

/-! ### The sequential search's provider-call trace -/

theorem seq_trace_le (env : SearchEnv) (hat q : String) (b : Nat)
    (st : OrchSt) (now : Nat) :
    (executeSequentialSearch env hat q b st now).2.2.2.length ≤ 1 := by
  unfold executeSequentialSearch
  split
  · simp
  split
  · simp
  split
  · simp
  split <;> simp

theorem seq_trace_of_budget (env : SearchEnv) (hat q : String) (b : Nat)
    (st : OrchSt) (now : Nat) (h : st.maxSearches ≤ b) :
    (executeSequentialSearch env hat q b st now).2.2.2 = [] := by
  unfold executeSequentialSearch
  rw [if_pos h]

/-! ## C1 — the session-wide provider-call budget -/

/-- C1: across one orchestration session — the initial parallel wave over
distinct participants followed by the sequential green-hat attempt gated on
`budget_used = len(search_contexts)`, the blue hat never searching by fixed
policy — the number of provider calls actually executed (the trace length,
which excludes cache hits and dedup-redirected resolutions) never exceeds
the configured budget `max_searches`. -/
theorem c1_session_budget (env : SearchEnv)
    (queries : List (String × String)) (greenQ : String) (st : OrchSt)
    (now : Nat) (hnd : (queries.map Prod.fst).Nodup) :
    (runSession env queries greenQ st now).trace.length ≤
      st.maxSearches := by
  obtain ⟨imax, icnt, ibound, itrace, ictx⟩ :=
    waveLoop_invariant env queries ⟨[], 0, st, now, []⟩ hnd (by simp)
  set r := waveLoop env queries ⟨[], 0, st, now, []⟩ with hr
  have imax' : r.st.maxSearches = st.maxSearches := imax
  have hcnt : r.count ≤ st.maxSearches := ibound (Nat.zero_le _)
  have htr : r.trace.length + 0 ≤ 0 + r.count := itrace
  have hcx : r.trace.length + 0 ≤ 0 + r.ctxs.length := ictx
  show ((executeInitialSearchWave env queries st now).trace ++
      (executeSequentialSearch env "green" greenQ
        (executeInitialSearchWave env queries st now).ctxs.length
        (executeInitialSearchWave env queries st now).st
        (executeInitialSearchWave env queries st now).now).2.2.2).length ≤
    st.maxSearches
  have hwtrace : (executeInitialSearchWave env queries st now).trace =
    r.trace := rfl
  have hwctxs : (executeInitialSearchWave env queries st now).ctxs =
    r.ctxs := rfl
  have hwmax :
      (executeInitialSearchWave env queries st now).st.maxSearches =
        r.st.maxSearches := rfl
  rw [List.length_append, hwtrace, hwctxs]
  by_cases hb : st.maxSearches ≤ r.ctxs.length
  · rw [seq_trace_of_budget env "green" greenQ r.ctxs.length _ _
      (by rw [hwmax, imax']; exact hb)]
    simp only [List.length_nil]
    omega
  · have hle := seq_trace_le env "green" greenQ r.ctxs.length
      (executeInitialSearchWave env queries st now).st
      (executeInitialSearchWave env queries st now).now
    omega

/-- C1 witness: a one-participant session with budget 1; the single fresh
call fits the budget. -/
theorem c1_session_budget_witness :
    (([("white", "alpha")] : List (String × String)).map
        Prod.fst).Nodup ∧
    (runSession okProviderEnv [("white", "alpha")] "g" freshSt 0).trace.length
      ≤ freshSt.maxSearches :=
  ⟨by decide,
    c1_session_budget okProviderEnv [("white", "alpha")] "g" freshSt 0
      (by decide)⟩

/-! ## C8 — provider failure is a local empty result -/

/-- The wave loop depends on the environment only through
`tavilySearch · · 5` and `callTime`. -/
theorem waveLoop_provider_congr (env env' : SearchEnv)
    (hs : ∀ q, tavilySearch env q 5 = tavilySearch env' q 5)
    (ht : ∀ q, env.callTime q = env'.callTime q) :
    ∀ (pend : List (String × String)) (w : WaveState),
      waveLoop env pend w = waveLoop env' pend w := by
  intro pend
  induction pend with
  | nil => intro w; rfl
  | cons hq rest ih =>
    obtain ⟨hat, q⟩ := hq
    intro w
    rw [waveLoop, waveLoop]
    split
    · rfl
    split
    · exact ih _
    · split
      · exact ih _
      · have hf : freshStep env w hat q (w.st.cache.get q hat w.now).2 =
            freshStep env' w hat q (w.st.cache.get q hat w.now).2 := by
          unfold freshStep
          rw [hs q, ht q]
        rw [hf]
        exact ih _

/-- C8: a raw provider failure is caught inside `TavilySearchAPI.search` and
surfaces as the empty result list; consequently a whole wave (and a whole
sequential resolution) behaves **identically** to one in which the provider
had successfully returned no results for that query: the failing
participant gets an empty result set, every other participant's context is
unchanged, no exception escapes, and the provider-call trace is the same —
in particular no retry is attempted and no extra quota is consumed. -/
theorem c8_provider_failure (env : SearchEnv) (badQ msg : String)
    (h : env.raw badQ 5 = .error msg) :
    tavilySearch env badQ 5 = [] ∧
    (∀ queries st now,
      executeInitialSearchWave env queries st now =
        executeInitialSearchWave (patchEnv env badQ) queries st now) ∧
    (∀ hat q b st now,
      executeSequentialSearch env hat q b st now =
        executeSequentialSearch (patchEnv env badQ) hat q b st now) := by
  have hs : ∀ q, tavilySearch env q 5 = tavilySearch (patchEnv env badQ) q 5 := by
    intro q
    unfold tavilySearch patchEnv
    by_cases hq : (q == badQ) = true
    · have hqe : q = badQ := by simpa using hq
      subst hqe
      rw [h]
      simp [hq]
    · simp [hq]
  have ht : ∀ q, env.callTime q = (patchEnv env badQ).callTime q :=
    fun _ => rfl
  refine ⟨?_, ?_, ?_⟩
  · unfold tavilySearch
    rw [h]
  · intro queries st now
    unfold executeInitialSearchWave
    rw [waveLoop_provider_congr env _ hs ht]
  · intro hat q b st now
    unfold executeSequentialSearch
    split
    · rfl
    split
    · rfl
    split
    · rfl
    split
    · rfl
    · rw [hs q, ht q]

/-- C8 witness: a provider whose raw call always fails; the wave with one
participant equals the wave against a successfully-empty provider. -/
theorem c8_provider_failure_witness :
    tavilySearch failProviderEnv "x" 5 = [] ∧
    executeInitialSearchWave failProviderEnv [("white", "x")] freshSt 0 =
      executeInitialSearchWave (patchEnv failProviderEnv "x")
        [("white", "x")] freshSt 0 :=
  ⟨(c8_provider_failure failProviderEnv "x" "timeout" rfl).1,
    (c8_provider_failure failProviderEnv "x" "timeout" rfl).2.1
      [("white", "x")] freshSt 0⟩

/-! ## C7 — complexity scoring -/

/-- C7: for every query string the complexity classification equals the
spec's additive scoring rule — +1 for more than 15 tokens, +2 for a
technical-term vocabulary match, +1 for multiple clauses (repeated question
marks, conjunctions, or at least three commas), +1 for comparison
vocabulary; a total of at most 1 is SIMPLE, 2–3 is MODERATE, 4 or more is
COMPLEX. -/
theorem c7_complexity_scoring (query : String) :
    determineComplexity query = specComplexityClass query := by
  unfold determineComplexity specComplexityClass specComplexityScore
  cases wordCountOver15 query <;> cases hasTechnicalTerms query <;>
    cases hasMultipleParts query <;> cases hasComparativeTerms query <;> simp

/-! ## C2 — budget allocator -/

/-- C2 counterexample: for the priority map `{red: MEDIUM}` — which has an
eligible MEDIUM candidate — the allocator returns `[red]` without the
CRITICAL facts (white) participant, because the mandatory-inclusion rule
only fires when the white hat is among the priority map's keys. -/
theorem c2_counterexample :
    allocateSearchBudget [(HatType.red, SearchPriority.medium)] =
        some [HatType.red] ∧
      HatType.white ∉ [HatType.red] ∧
      shouldAllocate SearchPriority.medium = true := by decide

/-- C2 amended: for any priority map **that lists the facts (white)
participant among its keys** and has at least one CRITICAL/HIGH/MEDIUM
candidate, the allocator succeeds, its output has length at most 4 (the
budget hard-wired in the source), the white hat is present, and when
truncation dropped the white hat the output is exactly the white hat
inserted at the front of the truncated allocation with its lowest-priority
(last) entry evicted. -/
theorem c2_allocator_amended (recs : List (HatType × SearchPriority))
    (hcand : ∃ x ∈ recs, shouldAllocate x.2 = true)
    (hwhite : HatType.white ∈ recs.map Prod.fst) :
    ∃ l, allocateSearchBudget recs = some l ∧ l.length ≤ 4 ∧
      HatType.white ∈ l ∧
      (HatType.white ∉ truncatedAllocation recs →
        l = HatType.white :: (truncatedAllocation recs).dropLast) := by
  have hflen : 0 < (recs.filter (fun x => shouldAllocate x.2)).length := by
    obtain ⟨x, hx, hsa⟩ := hcand
    exact List.length_pos.mpr
      (List.ne_nil_of_mem (List.mem_filter.mpr ⟨hx, hsa⟩))
  have hlenpos : 0 < (truncatedAllocation recs).length := by
    unfold truncatedAllocation
    rw [List.length_map, List.length_take, List.length_insertionSort]
    omega
  have hlen4 : (truncatedAllocation recs).length ≤ 4 := by
    unfold truncatedAllocation
    rw [List.length_map, List.length_take]
    omega
  simp only [allocateSearchBudget]
  split
  case isTrue h =>
    rcases htr : truncatedAllocation recs with _ | ⟨a, rest⟩
    · rw [htr] at hlenpos; simp at hlenpos
    · refine ⟨HatType.white :: (a :: rest).dropLast, rfl, ?_, ?_, ?_⟩
      · have h4 := htr ▸ hlen4
        simp only [List.length_cons, List.length_dropLast] at h4 ⊢
        omega
      · exact List.mem_cons_self _ _
      · intro _; rfl
  case isFalse h =>
    have hmem : HatType.white ∈ truncatedAllocation recs := by
      by_contra hnot
      exact h ⟨hnot, hwhite⟩
    exact ⟨truncatedAllocation recs, rfl, hlen4, hmem,
      fun hcontra => absurd hmem hcontra⟩

/-- C2 witness: the one-entry priority map `{white: CRITICAL}` satisfies
both hypotheses and the allocator keeps the white hat. -/
theorem c2_allocator_amended_witness :
    (∃ x ∈ [(HatType.white, SearchPriority.critical)],
        shouldAllocate x.2 = true) ∧
    HatType.white ∈
        [(HatType.white, SearchPriority.critical)].map Prod.fst ∧
    ∃ l, allocateSearchBudget [(HatType.white, SearchPriority.critical)] =
          some l ∧ l.length ≤ 4 ∧ HatType.white ∈ l ∧
        (HatType.white ∉
            truncatedAllocation [(HatType.white, SearchPriority.critical)] →
          l = HatType.white ::
            (truncatedAllocation
              [(HatType.white, SearchPriority.critical)]).dropLast) :=
  ⟨by decide, by decide,
    c2_allocator_amended [(HatType.white, SearchPriority.critical)]
      (by decide) (by decide)⟩

/-! ## C10 — the initial allocation is always the four parallel hats -/

theorem allocate_parallel_cases (rp yp bp gp : SearchPriority)
    (h1 : rp = .high ∨ rp = .medium) (h2 : yp = .high ∨ yp = .medium)
    (h3 : bp = .high ∨ bp = .medium) (h4 : gp = .medium ∨ gp = .low) :
    ∃ l, allocateSearchBudget
        [(.white, .critical), (.red, rp), (.yellow, yp), (.black, bp),
         (.green, gp), (.blue, .low)] = some l ∧
      l.length = 4 ∧ l.head? = some HatType.white ∧
      l.Perm [HatType.white, .red, .yellow, .black] := by
  rcases h1 with rfl | rfl <;> rcases h2 with rfl | rfl <;>
    rcases h3 with rfl | rfl <;> rcases h4 with rfl | rfl <;>
    exact ⟨_, rfl, by decide, by decide, by decide⟩

/-- C10: for every input query, `analyze_query`'s budget allocation is
defined (no `IndexError`), has length exactly 4, starts with the white hat,
and is a permutation of the four parallel hats (white, red, yellow, black):
the green and blue hats can never appear in the initial allocation. -/
theorem c10_initial_allocation (query : String) :
    ∃ l, analyzeQueryBudgetAllocation query = some l ∧ l.length = 4 ∧
      l.head? = some HatType.white ∧
      l.Perm [HatType.white, .red, .yellow, .black] := by
  simp only [analyzeQueryBudgetAllocation, determineSearchPriorities]
  exact allocate_parallel_cases _ _ _ _ (by split <;> simp)
    (by split <;> simp) (by split <;> simp) (by split <;> simp)

/-! ## C3 — the duplicate branch's cache lookup -/

/-- C3 counterexample: the registry holds `"a b c d e"` (white hat) and the
cache holds that **matched** query's results, so by the claim the flagged
near-duplicate `"a b c d"` should resolve to a `cache_hit` context.  The
code keys the lookup on the *current* query instead, misses, and produces no
context at all for the white hat: the wave output has an empty results
dictionary although the duplicate was counted. -/
theorem c3_counterexample :
    (executeInitialSearchWave okProviderEnv [("white", "a b c d")]
        dupRegisteredSt 0).ctxs = [] ∧
    (executeInitialSearchWave okProviderEnv [("white", "a b c d")]
        dupRegisteredSt 0).st.stats.duplicatesPrevented = 1 ∧
    (isDuplicate thr08 "a b c d" dupRegisteredSt.registry).2 =
        some "a b c d e" ∧
    (dupRegisteredSt.cache.get "a b c d e" "white" 0).1 =
        some [sampleResult] := by decide

/-- C3 amended: when the duplicate detector flags the current query, the
orchestrator attempts the cache lookup keyed on the **current** query and
participant (not the matched prior query); if that entry is present and
non-empty, the resolution step yields a context flagged `cache_hit = true`
with zero elapsed time whose metadata notes the duplicate source (the
matched query), and the step consumes one unit of the wave's search counter
while making no provider call. -/
theorem c3_dup_branch_amended (env : SearchEnv) (hat q : String)
    (rs : List SearchResult) (rest : List (String × String)) (w : WaveState)
    (hlt : w.count < w.st.maxSearches)
    (hdup : (isDuplicate w.st.simThreshold q w.st.registry).1 = true)
    (hget : (w.st.cache.get q hat w.now).1 = some rs)
    (hne : rs.isEmpty = false) :
    waveLoop env ((hat, q) :: rest) w =
      waveLoop env rest
        (dupStep w hat q (isDuplicate w.st.simThreshold q w.st.registry).2) ∧
    (dupStep w hat q
        (isDuplicate w.st.simThreshold q w.st.registry).2).ctxs.find?
        (fun p => p.1 == hat) =
      some (hat, ⟨hat, q, rs, true, 0,
        ⟨q.length, rs.length,
          (isDuplicate w.st.simThreshold q w.st.registry).2, none⟩⟩) ∧
    (dupStep w hat q
        (isDuplicate w.st.simThreshold q w.st.registry).2).trace = w.trace ∧
    (dupStep w hat q
        (isDuplicate w.st.simThreshold q w.st.registry).2).count =
      w.count + 1 := by
  refine ⟨?_, ?_, rfl, rfl⟩
  · rw [waveLoop, if_neg (by omega), if_pos hdup]
  · rw [dupStep_ctxs_of_hit w hat q _ rs hget hne]
    exact find?_dictInsert _ _ _

/-- C3 amended witness: a concrete duplicate whose current query is itself
cached, producing the duplicate-sourced `cache_hit` context. -/
theorem c3_dup_branch_amended_witness :
    waveLoop okProviderEnv [("white", "a b c d")]
        ⟨[], 0, dupCachedCurrentSt, 0, []⟩ =
      waveLoop okProviderEnv []
        (dupStep ⟨[], 0, dupCachedCurrentSt, 0, []⟩ "white" "a b c d"
          (isDuplicate thr08 "a b c d" dupCachedCurrentSt.registry).2) ∧
    (dupStep ⟨[], 0, dupCachedCurrentSt, 0, []⟩ "white" "a b c d"
        (isDuplicate thr08 "a b c d" dupCachedCurrentSt.registry).2).ctxs.find?
        (fun p => p.1 == "white") =
      some ("white", ⟨"white", "a b c d", [sampleResult], true, 0,
        ⟨"a b c d".length, [sampleResult].length,
          (isDuplicate thr08 "a b c d" dupCachedCurrentSt.registry).2,
          none⟩⟩) ∧
    (dupStep ⟨[], 0, dupCachedCurrentSt, 0, []⟩ "white" "a b c d"
        (isDuplicate thr08 "a b c d" dupCachedCurrentSt.registry).2).trace =
      ([] : List String) ∧
    (dupStep ⟨[], 0, dupCachedCurrentSt, 0, []⟩ "white" "a b c d"
        (isDuplicate thr08 "a b c d" dupCachedCurrentSt.registry).2).count =
      0 + 1 :=
  c3_dup_branch_amended okProviderEnv "white" "a b c d" [sampleResult] []
    ⟨[], 0, dupCachedCurrentSt, 0, []⟩ (by decide) (by decide) (by decide)
    (by decide)

/-! ## C4 — a cache hit does consume a wave-counter unit -/

/-- C4 counterexample: with budget 1 and `("q1", "white")` cached, the white
hat's cache hit uses up the whole wave counter — the red hat, which would
have executed a fresh provider lookup on its own (second conjunct), is cut
off and no provider call at all happens (first conjunct).  A cache hit
therefore does reduce how many remaining participants may execute fresh
provider lookups, contradicting the claim's no-quota-consumed part. -/
theorem c4_counterexample :
    (executeInitialSearchWave okProviderEnv [("white", "q1"), ("red", "q2")]
        cacheHitSt 0).trace = [] ∧
    (executeInitialSearchWave okProviderEnv [("red", "q2")]
        cacheHitSt 0).trace = ["q2"] ∧
    (executeInitialSearchWave okProviderEnv [("white", "q1"), ("red", "q2")]
        cacheHitSt 0).ctxs.map
        (fun p => (p.1, p.2.cacheHit, p.2.executionTime)) =
      [("white", true, 0)] := by decide

/-- C4 amended: when the cache holds a valid entry for the current query and
participant (and the query is not a near-duplicate), the resolution returns
immediately with `cache_hit = true` and zero elapsed time and no provider
call is made — but the hit **does** consume one unit of the wave's
`search_count`, so it reduces how many remaining participants may execute
fresh provider lookups. -/
theorem c4_cache_hit_amended (env : SearchEnv) (hat q : String)
    (rs : List SearchResult) (rest : List (String × String)) (w : WaveState)
    (hlt : w.count < w.st.maxSearches)
    (hdup : (isDuplicate w.st.simThreshold q w.st.registry).1 = false)
    (hget : (w.st.cache.get q hat w.now).1 = some rs) :
    waveLoop env ((hat, q) :: rest) w =
      waveLoop env rest
        (hitStep w hat q rs (w.st.cache.get q hat w.now).2) ∧
    (hitStep w hat q rs (w.st.cache.get q hat w.now).2).ctxs.find?
        (fun p => p.1 == hat) =
      some (hat, ⟨hat, q, rs, true, 0, ⟨q.length, rs.length, none, none⟩⟩) ∧
    (hitStep w hat q rs (w.st.cache.get q hat w.now).2).trace = w.trace ∧
    (hitStep w hat q rs (w.st.cache.get q hat w.now).2).count =
      w.count + 1 := by
  refine ⟨?_, find?_dictInsert _ _ _, rfl, rfl⟩
  rw [waveLoop, if_neg (by omega), if_neg (by simp [hdup]), hget]

/-- C4 amended witness: the concrete cache hit of `cacheHitSt`. -/
theorem c4_cache_hit_amended_witness :
    waveLoop okProviderEnv [("white", "q1"), ("red", "q2")]
        ⟨[], 0, cacheHitSt, 0, []⟩ =
      waveLoop okProviderEnv [("red", "q2")]
        (hitStep ⟨[], 0, cacheHitSt, 0, []⟩ "white" "q1" [sampleResult]
          ((cacheHitSt.cache.get "q1" "white" 0).2)) ∧
    (hitStep ⟨[], 0, cacheHitSt, 0, []⟩ "white" "q1" [sampleResult]
        ((cacheHitSt.cache.get "q1" "white" 0).2)).ctxs.find?
        (fun p => p.1 == "white") =
      some ("white", ⟨"white", "q1", [sampleResult], true, 0,
        ⟨"q1".length, [sampleResult].length, none, none⟩⟩) ∧
    (hitStep ⟨[], 0, cacheHitSt, 0, []⟩ "white" "q1" [sampleResult]
        ((cacheHitSt.cache.get "q1" "white" 0).2)).trace =
      ([] : List String) ∧
    (hitStep ⟨[], 0, cacheHitSt, 0, []⟩ "white" "q1" [sampleResult]
        ((cacheHitSt.cache.get "q1" "white" 0).2)).count = 0 + 1 :=
  c4_cache_hit_amended okProviderEnv "white" "q1" [sampleResult]
    [("red", "q2")] ⟨[], 0, cacheHitSt, 0, []⟩ (by decide) (by decide)
    (by decide)

end SixHats
